import Mathlib

/-!
Verification of the clustered non-maximum suppression post-processor and the
preprocessor buffer-role swap of the jetson_tensorrt repository, shallowly
embedded from src/tensorrt/DIGITSDetector.cpp and
src/tensorrt/CUDAImagePreprocessor.cpp.  IEEE float arithmetic is modelled
exactly by rational numbers; size_t casts and subtraction are modelled with
explicit truncation and arithmetic modulo 2^64.
-/

namespace JetsonTensorrt

/-- Embedding of the ad hoc struct float6 of DIGITSDetector.cpp: a rectangle
(x = left, y = top, z = right, w = bottom) plus coverage confidence (v) and
class id (u), both stored as floats in the source. -/
structure Float6 where
  x : ℚ
  y : ℚ
  z : ℚ
  w : ℚ
  v : ℚ
  u : ℚ
deriving DecidableEq

/-- Embedding of make_float6 of DIGITSDetector.cpp. -/
def make_float6 (x y z w v u : ℚ) : Float6 :=
  ⟨x, y, z, w, v, u⟩

/-- Embedding of rectOverlap of DIGITSDetector.cpp:
return !(r2.x > r1.z || r2.z < r1.x || r2.y > r1.w || r2.w < r1.y). -/
def rectOverlap (r1 r2 : Float6) : Bool :=
  !(decide (r2.x > r1.z) || decide (r2.z < r1.x) ||
    decide (r2.y > r1.w) || decide (r2.w < r1.y))

/-- Embedding of the in-place update performed by mergeRect on the first
overlapping accumulated rectangle: the four conditional edge updates of
DIGITSDetector.cpp lines 204-211; the confidence (v) and class (u) fields are
not touched. -/
def updateRect (old rect : Float6) : Float6 :=
  { old with
    x := if rect.x < old.x then rect.x else old.x,
    y := if rect.y < old.y then rect.y else old.y,
    z := if rect.z > old.z then rect.z else old.z,
    w := if rect.w > old.w then rect.w else old.w }

/-- Embedding of mergeRect of DIGITSDetector.cpp: scan the accumulated
rectangles in order; at the first overlap, update that rectangle in place and
break; if none overlaps, push_back the candidate. -/
def mergeRect : List Float6 → Float6 → List Float6
  | [], rect => [rect]
  | r :: rs, rect =>
    if rectOverlap r rect then updateRect r rect :: rs
    else r :: mergeRect rs rect

/-- Embedding of the state of ClusteredNonMaximumSuppression
(DIGITSDetector.cpp / DIGITSDetector.h).

Modelled from the spec: the member declarations live in DIGITSDetector.h,
which is not among the sources; per the spec the scale members
(imageScaleX, imageScaleY, cellWidth, cellHeight) hold exact quotients of the
supplied dimensions (networkInputSize / imageSize, networkInputSize /
gridSize), so they are modelled as rationals, while the dimension members are
the size_t setter arguments, modelled as naturals. -/
structure ClusteredNonMaximumSuppression where
  imageDimX : ℕ
  imageDimY : ℕ
  imageScaleX : ℚ
  imageScaleY : ℚ
  inputDimX : ℕ
  inputDimY : ℕ
  gridDimX : ℕ
  gridDimY : ℕ
  cellWidth : ℚ
  cellHeight : ℚ
  gridSize : ℕ
  imageReady : Bool
  inputReady : Bool
  gridReady : Bool
deriving DecidableEq

/-- Embedding of the ClusteredNonMaximumSuppression default constructor:
all dimensions and scales zero, all readiness flags false. -/
def defaultSuppression : ClusteredNonMaximumSuppression :=
  ⟨0, 0, 0, 0, 0, 0, 0, 0, 0, 0, 0, false, false, false⟩

/-- Embedding of ClusteredNonMaximumSuppression::calculateScale. -/
def calculateScale (s : ClusteredNonMaximumSuppression) :
    ClusteredNonMaximumSuppression :=
  { s with
    imageScaleX := (s.inputDimX : ℚ) / (s.imageDimX : ℚ),
    imageScaleY := (s.inputDimY : ℚ) / (s.imageDimY : ℚ),
    cellWidth := (s.inputDimX : ℚ) / (s.gridDimX : ℚ),
    cellHeight := (s.inputDimY : ℚ) / (s.gridDimY : ℚ) }

/-- Embedding of ClusteredNonMaximumSuppression::setupImage. -/
def setupImage (s : ClusteredNonMaximumSuppression) (imageDimX imageDimY : ℕ) :
    ClusteredNonMaximumSuppression :=
  let t := { s with imageDimX := imageDimX, imageDimY := imageDimY,
                    imageReady := true }
  if t.imageReady && t.inputReady && t.gridReady then calculateScale t else t

/-- Embedding of ClusteredNonMaximumSuppression::setupInput. -/
def setupInput (s : ClusteredNonMaximumSuppression) (inputDimX inputDimY : ℕ) :
    ClusteredNonMaximumSuppression :=
  let t := { s with inputDimX := inputDimX, inputDimY := inputDimY,
                    inputReady := true }
  if t.imageReady && t.inputReady && t.gridReady then calculateScale t else t

/-- Embedding of ClusteredNonMaximumSuppression::setupGrid. -/
def setupGrid (s : ClusteredNonMaximumSuppression) (gridDimX gridDimY : ℕ) :
    ClusteredNonMaximumSuppression :=
  let t := { s with gridDimX := gridDimX, gridDimY := gridDimY,
                    gridSize := gridDimX * gridDimY, gridReady := true }
  if t.imageReady && t.inputReady && t.gridReady then calculateScale t else t

/-- C style truncation of a (nonnegative) float to size_t, as in the casts
(size_t)r.x of DIGITSDetector.cpp lines 270-276. -/
def truncToNat (q : ℚ) : ℕ :=
  q.num.toNat / q.den

/-- size_t subtraction, i.e. subtraction modulo 2^64, as in the expressions
x2 - x1 and y2 - y1 of DIGITSDetector.cpp line 279. -/
def subSizeT (a b : ℕ) : ℕ :=
  (((a : ℤ) - (b : ℤ)) % (2 ^ 64)).toNat

/-- Embedding of RTClassifiedRegionOfInterest as constructed in
DIGITSDetector.cpp line 278: (classID, coverage, x1, y1, x2 - x1, y2 - y1). -/
structure RTClassifiedRegionOfInterest where
  id : ℕ
  coverage : ℚ
  x : ℕ
  y : ℕ
  width : ℕ
  height : ℕ
deriving DecidableEq

/-- The candidate rectangle built for grid cell (y, x) of class c in
ClusteredNonMaximumSuppression::execute (DIGITSDetector.cpp lines 240-252). -/
def cellRect (s : ClusteredNonMaximumSuppression) (coverage bboxes : ℕ → ℚ)
    (c y x : ℕ) : Float6 :=
  make_float6
    ((bboxes (0 * s.gridSize + y * s.gridDimX + x) + (x : ℚ) * s.cellWidth) *
      s.imageScaleX)
    ((bboxes (1 * s.gridSize + y * s.gridDimX + x) + (y : ℚ) * s.cellHeight) *
      s.imageScaleY)
    ((bboxes (2 * s.gridSize + y * s.gridDimX + x) + (x : ℚ) * s.cellWidth) *
      s.imageScaleX)
    ((bboxes (3 * s.gridSize + y * s.gridDimX + x) + (y : ℚ) * s.cellHeight) *
      s.imageScaleY)
    (coverage (c * s.gridSize + y * s.gridDimX + x))
    (c : ℚ)

/-- The clustering loop of ClusteredNonMaximumSuppression::execute for one
class c (DIGITSDetector.cpp lines 234-255): visit cells with y outer and x
inner, and mergeRect every candidate whose coverage exceeds the threshold. -/
def clusterClass (s : ClusteredNonMaximumSuppression)
    (coverage bboxes : ℕ → ℚ) (coverageThreshold : ℚ) (c : ℕ) : List Float6 :=
  (List.range s.gridDimY).foldl (fun rowAcc y =>
    (List.range s.gridDimX).foldl (fun acc x =>
      if coverage (c * s.gridSize + y * s.gridDimX + x) > coverageThreshold then
        mergeRect acc (cellRect s coverage bboxes c y x)
      else acc) rowAcc) []

/-- Emission of one accumulated rectangle as an RTClassifiedRegionOfInterest
(DIGITSDetector.cpp lines 268-279): truncate the four edges and the class id
to size_t at construction and derive width and height by size_t
subtraction. -/
def emitRegion (r : Float6) : RTClassifiedRegionOfInterest :=
  ⟨truncToNat r.u, r.v, truncToNat r.x, truncToNat r.y,
    subSizeT (truncToNat r.z) (truncToNat r.x),
    subSizeT (truncToNat r.w) (truncToNat r.y)⟩

/-- Embedding of ClusteredNonMaximumSuppression::execute
(DIGITSDetector.cpp lines 221-286): cluster every class, then emit the
accumulated rectangles class by class while boxIndex (the second component of
the fold state) stays below gridSize * nbClasses. -/
def execute (s : ClusteredNonMaximumSuppression) (coverage bboxes : ℕ → ℚ)
    (nbClasses : ℕ) (coverageThreshold : ℚ) :
    List RTClassifiedRegionOfInterest :=
  let rects :=
    (List.range nbClasses).map (clusterClass s coverage bboxes coverageThreshold)
  let maxBoundingBoxes := s.gridSize * nbClasses
  (rects.foldl (fun st classRects =>
      classRects.foldl (fun st r =>
        if st.2 < maxBoundingBoxes then (st.1 ++ [emitRegion r], st.2 + 1)
        else st) st)
    ([], 0)).1

/-- Embedding of the cache pair of CUDAImagePreprocessor.cpp; the two caches
are represented by their identities (an arbitrary type), since swapIO moves
pointers only. -/
structure CUDAImagePreprocessor (α : Type) where
  inputCache : α
  outputCache : α
deriving DecidableEq

/-- Embedding of CUDAImagePreprocessor::swapIO (CUDAImagePreprocessor.cpp
lines 64-69): exchange the two cache pointers. -/
def swapIO {α : Type} (p : CUDAImagePreprocessor α) :
    CUDAImagePreprocessor α :=
  { p with outputCache := p.inputCache, inputCache := p.outputCache }

/-- The grid cells in the visit order of execute: y outer, x inner
(row-major). -/
def rowMajorCells (gridDimY gridDimX : ℕ) : List (ℕ × ℕ) :=
  (List.range gridDimY).flatMap (fun y =>
    (List.range gridDimX).map (fun x => (y, x)))

/-- The candidate rectangles of one class in cell visit order, written the way
the spec describes them: exactly the cells whose coverage exceeds the
threshold, each mapped to its scaled rectangle. -/
def specCandidates (s : ClusteredNonMaximumSuppression)
    (coverage bboxes : ℕ → ℚ) (coverageThreshold : ℚ) (c : ℕ) : List Float6 :=
  (rowMajorCells s.gridDimY s.gridDimX).filterMap (fun p =>
    if coverage (c * s.gridSize + p.1 * s.gridDimX + p.2) > coverageThreshold
    then some (cellRect s coverage bboxes c p.1 p.2)
    else none)

/- Helper lemmas. -/

theorem updateRect_eq_minmax (old rect : Float6) :
    updateRect old rect =
      ⟨min old.x rect.x, min old.y rect.y, max old.z rect.z, max old.w rect.w,
        old.v, old.u⟩ := by
  unfold updateRect
  congr 1 <;> rcases lt_or_le rect.x old.x with h | h <;>
    rcases lt_or_le rect.y old.y with h2 | h2 <;>
    rcases lt_or_le old.z rect.z with h3 | h3 <;>
    rcases lt_or_le old.w rect.w with h4 | h4 <;>
    simp [min_def, max_def, le_of_lt, *]

theorem mergeRect_of_no_overlap (rect : Float6) :
    ∀ rects : List Float6, (∀ p ∈ rects, rectOverlap p rect = false) →
      mergeRect rects rect = rects ++ [rect] := by
  intro rects
  induction rects with
  | nil => intro _; rfl
  | cons r rs ih =>
    intro h
    have hr : rectOverlap r rect = false := h r (List.mem_cons_self r rs)
    simp [mergeRect, hr, ih fun p hp => h p (List.mem_cons_of_mem r hp)]

theorem mergeRect_first_match (pre post : List Float6) (r rect : Float6)
    (hpre : ∀ p ∈ pre, rectOverlap p rect = false)
    (hr : rectOverlap r rect = true) :
    mergeRect (pre ++ r :: post) rect = pre ++ updateRect r rect :: post := by
  induction pre with
  | nil => simp [mergeRect, hr]
  | cons p ps ih =>
    have hp : rectOverlap p rect = false := hpre p (List.mem_cons_self p ps)
    simp only [List.cons_append, mergeRect, hp, Bool.false_eq_true, if_false]
    simp [ih fun q hq => hpre q (List.mem_cons_of_mem p hq)]

theorem mergeRect_map_vu (rect : Float6) :
    ∀ rects : List Float6,
      (mergeRect rects rect).map (fun r => (r.v, r.u)) =
        rects.map (fun r => (r.v, r.u)) ++
          (if rects.any (fun r => rectOverlap r rect) then []
           else [(rect.v, rect.u)]) := by
  intro rects
  induction rects with
  | nil => simp [mergeRect]
  | cons r rs ih =>
    by_cases h : rectOverlap r rect
    · simp [mergeRect, h, updateRect]
    · simp only [Bool.not_eq_true] at h
      simp [mergeRect, h, ih]

theorem mergeRect_length (rect : Float6) :
    ∀ rects : List Float6, (mergeRect rects rect).length ≤ rects.length + 1 := by
  intro rects
  induction rects with
  | nil => simp [mergeRect]
  | cons r rs ih =>
    by_cases h : rectOverlap r rect
    · simp [mergeRect, h]
    · simp only [Bool.not_eq_true] at h
      simp only [mergeRect, h, Bool.false_eq_true, if_false, List.length_cons]
      omega

theorem foldl_ite_filterMap {α β γ : Type} (P : α → Prop) [DecidablePred P]
    (f : α → β) (g : γ → β → γ) :
    ∀ (l : List α) (acc : γ),
      l.foldl (fun a p => if P p then g a (f p) else a) acc =
        (l.filterMap (fun p => if P p then some (f p) else none)).foldl g acc := by
  intro l
  induction l with
  | nil => intro acc; rfl
  | cons p ps ih =>
    intro acc
    by_cases h : P p <;> simp [h, ih]

theorem foldl_flatMap {α β γ : Type} (f : α → List β) (g : γ → β → γ) :
    ∀ (l : List α) (acc : γ),
      (l.flatMap f).foldl g acc =
        l.foldl (fun a x => (f x).foldl g a) acc := by
  intro l
  induction l with
  | nil => intro acc; rfl
  | cons x xs ih =>
    intro acc
    simp [List.foldl_append, ih]

theorem clusterClass_eq_foldl (s : ClusteredNonMaximumSuppression)
    (coverage bboxes : ℕ → ℚ) (coverageThreshold : ℚ) (c : ℕ) :
    clusterClass s coverage bboxes coverageThreshold c =
      (specCandidates s coverage bboxes coverageThreshold c).foldl mergeRect
        [] := by
  unfold clusterClass specCandidates
  rw [← foldl_ite_filterMap
      (fun p : ℕ × ℕ =>
        coverage (c * s.gridSize + p.1 * s.gridDimX + p.2) > coverageThreshold)
      (fun p : ℕ × ℕ => cellRect s coverage bboxes c p.1 p.2) mergeRect]
  rw [rowMajorCells, foldl_flatMap]
  simp [List.foldl_map]

theorem foldl_emit_cap (max : ℕ) :
    ∀ (l : List Float6) (acc : List RTClassifiedRegionOfInterest) (n : ℕ),
      n = acc.length →
      l.foldl (fun st r =>
          if st.2 < max then (st.1 ++ [emitRegion r], st.2 + 1) else st)
        (acc, n) =
        (acc ++ (l.map emitRegion).take (max - n),
          n + min l.length (max - n)) := by
  intro l
  induction l with
  | nil => intro acc n hn; simp
  | cons r t ih =>
    intro acc n hn
    simp only [List.foldl_cons, List.map_cons, List.length_cons]
    by_cases h : n < max
    · rw [if_pos h]
      rw [ih (acc ++ [emitRegion r]) (n + 1) (by simp [hn])]
      obtain ⟨k, hk⟩ : ∃ k, max - n = k + 1 := ⟨max - n - 1, by omega⟩
      have hk2 : max - (n + 1) = k := by omega
      rw [hk, hk2, List.take_succ_cons]
      simp only [Prod.mk.injEq]
      constructor
      · simp [List.append_assoc]
      · omega
    · rw [if_neg h]
      rw [ih acc n hn]
      have h0 : max - n = 0 := by omega
      simp [h0]

theorem foldl_classes_cap (max : ℕ) :
    ∀ (ls : List (List Float6)) (acc : List RTClassifiedRegionOfInterest)
      (n : ℕ), n = acc.length →
      ls.foldl (fun st classRects =>
          classRects.foldl (fun st r =>
            if st.2 < max then (st.1 ++ [emitRegion r], st.2 + 1) else st) st)
        (acc, n) =
        (acc ++ (ls.flatMap (fun cl => cl.map emitRegion)).take (max - n),
          n + min (ls.flatMap (fun cl => cl.map emitRegion)).length (max - n)) := by
  intro ls
  induction ls with
  | nil => intro acc n hn; simp
  | cons cl t ih =>
    intro acc n hn
    simp only [List.foldl_cons, List.flatMap_cons]
    rw [foldl_emit_cap max cl acc n hn]
    have hA : (cl.map emitRegion).length = cl.length := by simp
    rw [ih (acc ++ (cl.map emitRegion).take (max - n))
        (n + min cl.length (max - n))
        (by simp only [List.length_append, List.length_take, hn, hA]; omega)]
    simp only [Prod.mk.injEq]
    constructor
    · rw [List.take_append_eq_append_take, ← List.append_assoc]
      have he : max - (n + min cl.length (max - n)) =
          max - n - (cl.map emitRegion).length := by
        rw [hA]; omega
      rw [he]
    · simp only [List.length_append, hA, List.length_take]
      omega

theorem execute_eq_take_flatMap (s : ClusteredNonMaximumSuppression)
    (coverage bboxes : ℕ → ℚ) (nbClasses : ℕ) (coverageThreshold : ℚ) :
    execute s coverage bboxes nbClasses coverageThreshold =
      ((List.range nbClasses).flatMap (fun c =>
          (clusterClass s coverage bboxes coverageThreshold c).map emitRegion)).take
        (s.gridSize * nbClasses) := by
  show (List.foldl _ ([], 0)
      (List.map (clusterClass s coverage bboxes coverageThreshold)
        (List.range nbClasses))).1 = _
  rw [foldl_classes_cap (s.gridSize * nbClasses) _ [] 0 rfl]
  simp [List.flatMap_map]

theorem foldl_mergeRect_length (l : List Float6) :
    ∀ acc : List Float6,
      (l.foldl mergeRect acc).length ≤ acc.length + l.length := by
  induction l with
  | nil => intro acc; simp
  | cons r t ih =>
    intro acc
    calc (List.foldl mergeRect (mergeRect acc r) t).length
        ≤ (mergeRect acc r).length + t.length := ih (mergeRect acc r)
      _ ≤ acc.length + 1 + t.length := by
          have := mergeRect_length r acc; omega
      _ = acc.length + (t.length + 1) := by omega
      _ = acc.length + (r :: t).length := by simp

theorem rowMajorCells_length (gridDimY gridDimX : ℕ) :
    (rowMajorCells gridDimY gridDimX).length = gridDimY * gridDimX := by
  unfold rowMajorCells
  induction gridDimY with
  | zero => simp
  | succ m ih =>
    rw [List.range_succ]
    simp only [List.flatMap_append, List.length_append, ih]
    simp [Nat.succ_mul]

theorem clusterClass_length_le (s : ClusteredNonMaximumSuppression)
    (coverage bboxes : ℕ → ℚ) (coverageThreshold : ℚ) (c : ℕ) :
    (clusterClass s coverage bboxes coverageThreshold c).length ≤
      s.gridDimY * s.gridDimX := by
  rw [clusterClass_eq_foldl]
  have h1 := foldl_mergeRect_length
    (specCandidates s coverage bboxes coverageThreshold c) []
  have h2 : (specCandidates s coverage bboxes coverageThreshold c).length ≤
      (rowMajorCells s.gridDimY s.gridDimX).length :=
    List.length_filterMap_le _ _
  rw [rowMajorCells_length] at h2
  simp only [List.length_nil, Nat.zero_add] at h1
  omega

theorem flatMap_length_le {α β : Type} (f : α → List β) (k : ℕ) :
    ∀ l : List α, (∀ a ∈ l, (f a).length ≤ k) →
      (l.flatMap f).length ≤ l.length * k := by
  intro l
  induction l with
  | nil => intro _; simp
  | cons a t ih =>
    intro h
    simp only [List.flatMap_cons, List.length_append, List.length_cons]
    have h1 : (f a).length ≤ k := h a (List.mem_cons_self a t)
    have h2 := ih fun b hb => h b (List.mem_cons_of_mem a hb)
    calc (f a).length + (t.flatMap f).length ≤ k + t.length * k := by omega
      _ = (t.length + 1) * k := by ring

theorem truncToNat_zero : truncToNat 0 = 0 := rfl

theorem subSizeT_eq (a b : ℕ) (hba : b ≤ a) (ha : a < 2 ^ 64) :
    subSizeT a b = a - b := by
  unfold subSizeT
  rw [Int.emod_eq_of_lt (by omega) (by push_cast; omega)]
  omega

theorem cellRect_zero_edges (s : ClusteredNonMaximumSuppression)
    (coverage bboxes : ℕ → ℚ) (c y x : ℕ)
    (hx : s.imageScaleX = 0) (hy : s.imageScaleY = 0) :
    (cellRect s coverage bboxes c y x).x = 0 ∧
    (cellRect s coverage bboxes c y x).y = 0 ∧
    (cellRect s coverage bboxes c y x).z = 0 ∧
    (cellRect s coverage bboxes c y x).w = 0 := by
  simp [cellRect, make_float6, hx, hy]

theorem mergeRect_zero_edges (rect : Float6)
    (hrect : rect.x = 0 ∧ rect.y = 0 ∧ rect.z = 0 ∧ rect.w = 0) :
    ∀ rects : List Float6,
      (∀ r ∈ rects, r.x = 0 ∧ r.y = 0 ∧ r.z = 0 ∧ r.w = 0) →
      ∀ r ∈ mergeRect rects rect, r.x = 0 ∧ r.y = 0 ∧ r.z = 0 ∧ r.w = 0 := by
  intro rects
  induction rects with
  | nil =>
    intro _ r hr
    simp only [mergeRect, List.mem_singleton] at hr
    exact hr ▸ hrect
  | cons q qs ih =>
    intro h r hr
    have hq := h q (List.mem_cons_self q qs)
    by_cases hov : rectOverlap q rect
    · simp only [mergeRect, hov, if_true, List.mem_cons] at hr
      rcases hr with hr | hr
      · subst hr
        simp [updateRect, hq.1, hq.2.1, hq.2.2.1, hq.2.2.2,
          hrect.1, hrect.2.1, hrect.2.2.1, hrect.2.2.2]
      · exact h r (List.mem_cons_of_mem q hr)
    · simp only [Bool.not_eq_true] at hov
      simp only [mergeRect, hov, Bool.false_eq_true, if_false,
        List.mem_cons] at hr
      rcases hr with hr | hr
      · exact hr ▸ hq
      · exact ih (fun p hp => h p (List.mem_cons_of_mem q hp)) r hr

theorem foldl_mergeRect_zero_edges (l : List Float6)
    (hl : ∀ cand ∈ l, cand.x = 0 ∧ cand.y = 0 ∧ cand.z = 0 ∧ cand.w = 0) :
    ∀ acc : List Float6,
      (∀ r ∈ acc, r.x = 0 ∧ r.y = 0 ∧ r.z = 0 ∧ r.w = 0) →
      ∀ r ∈ l.foldl mergeRect acc, r.x = 0 ∧ r.y = 0 ∧ r.z = 0 ∧ r.w = 0 := by
  induction l with
  | nil => intro acc hacc r hr; exact hacc r hr
  | cons cand t ih =>
    intro acc hacc r hr
    have hcand := hl cand (List.mem_cons_self cand t)
    exact ih (fun p hp => hl p (List.mem_cons_of_mem cand hp))
      (mergeRect acc cand)
      (mergeRect_zero_edges cand hcand acc hacc) r hr

/- Concrete fixtures used by the witness theorems. -/

/-- A fully configured suppressor: grid 2x2, network input 4x4, image 8x8. -/
def readyState : ClusteredNonMaximumSuppression :=
  setupImage (setupInput (setupGrid defaultSuppression 2 2) 4 4) 8 8

/-- A partially configured suppressor: input and grid supplied, image never
supplied, so the scale factors still hold their initial zeros. -/
def partialState : ClusteredNonMaximumSuppression :=
  setupGrid (setupInput defaultSuppression 2 2) 2 2

/-- A fully configured suppressor with unit scales: grid, input and image all
2x2. -/
def unitState : ClusteredNonMaximumSuppression :=
  setupImage (setupInput (setupGrid defaultSuppression 2 2) 2 2) 2 2

/-- Coverage map of the end-to-end spec scenario: cells (0,0) and (1,1) of
class 0 at 9/10, the others at 1/10. -/
def covE : ℕ → ℚ :=
  fun i => if i = 0 then 9 / 10 else if i = 3 then 9 / 10 else 1 / 10

/- Claim theorems. -/

/-- C1, counterexample: the claim says that calling execute before image,
input and grid sizes are all supplied fails with a NotConfiguredError rather
than returning a result.  The code has no such error path: on a state whose
input and grid sizes are set but whose image size is not, execute returns an
ordinary (zero-scaled) region list for a coverage map that is everywhere
above threshold. -/
theorem C1_counterexample_execute_returns :
    execute partialState (fun _ => 1) (fun _ => 1) 1 0 =
      [⟨0, 1, 0, 0, 0, 0⟩] ∧
    partialState.imageReady = false ∧ partialState.inputReady = true ∧
    partialState.gridReady = true := by with_unfolding_all decide

/-- C1, amended: calling execute before all three of image size, network
input size and grid size are supplied does not fail; because the scale
factors still hold their initial zeros, it returns a zero-scaled result in
which every region has zero coordinates and zero width and height, for every
coverage/bbox input and threshold. -/
theorem C1_execute_unconfigured_zero_scaled
    (s : ClusteredNonMaximumSuppression) (coverage bboxes : ℕ → ℚ)
    (nbClasses : ℕ) (coverageThreshold : ℚ)
    (hx : s.imageScaleX = 0) (hy : s.imageScaleY = 0) :
    ∀ reg ∈ execute s coverage bboxes nbClasses coverageThreshold,
      reg.x = 0 ∧ reg.y = 0 ∧ reg.width = 0 ∧ reg.height = 0 := by
  intro reg hreg
  rw [execute_eq_take_flatMap] at hreg
  have hreg2 := List.mem_of_mem_take hreg
  rw [List.mem_flatMap] at hreg2
  obtain ⟨c, _, hmem⟩ := hreg2
  rw [List.mem_map] at hmem
  obtain ⟨r, hr, rfl⟩ := hmem
  rw [clusterClass_eq_foldl] at hr
  have hcand : ∀ cand ∈ specCandidates s coverage bboxes coverageThreshold c,
      cand.x = 0 ∧ cand.y = 0 ∧ cand.z = 0 ∧ cand.w = 0 := by
    intro cand hcand
    rw [specCandidates, List.mem_filterMap] at hcand
    obtain ⟨p, _, hpe⟩ := hcand
    by_cases hcov :
        coverage (c * s.gridSize + p.1 * s.gridDimX + p.2) > coverageThreshold
    · rw [if_pos hcov, Option.some_inj] at hpe
      exact hpe ▸ cellRect_zero_edges s coverage bboxes c p.1 p.2 hx hy
    · rw [if_neg hcov] at hpe
      simp at hpe
  have hz := foldl_mergeRect_zero_edges
    (specCandidates s coverage bboxes coverageThreshold c) hcand []
    (by intro r hr2; exact absurd hr2 (List.not_mem_nil r)) r hr
  refine ⟨?_, ?_, ?_, ?_⟩ <;>
    simp [emitRegion, hz.1, hz.2.1, hz.2.2.1, hz.2.2.2, truncToNat_zero,
      subSizeT]

/-- C1, witness for the amended claim: on the concrete partially configured
state, the single region returned by execute has zero coordinates and
size. -/
theorem C1_execute_unconfigured_witness :
    (⟨0, 1, 0, 0, 0, 0⟩ : RTClassifiedRegionOfInterest).x = 0 ∧
    (⟨0, 1, 0, 0, 0, 0⟩ : RTClassifiedRegionOfInterest).y = 0 ∧
    (⟨0, 1, 0, 0, 0, 0⟩ : RTClassifiedRegionOfInterest).width = 0 ∧
    (⟨0, 1, 0, 0, 0, 0⟩ : RTClassifiedRegionOfInterest).height = 0 := by
  have h := C1_execute_unconfigured_zero_scaled partialState
    (fun _ => 1) (fun _ => 1) 1 0 (by decide) (by decide)
  exact h ⟨0, 1, 0, 0, 0, 0⟩ (by with_unfolding_all decide)

/-- C9: swapIO exchanges only which cache instance plays the input role and
which plays the output role, moving no buffer contents (the caches are
represented by their identities), and doing it twice restores the original
role assignment. -/
theorem C9_swapIO_role_exchange_involutive {α : Type}
    (p : CUDAImagePreprocessor α) :
    ( swapIO p).inputCache = p.outputCache ∧
    ( swapIO p).outputCache = p.inputCache ∧
    swapIO ( swapIO p) = p :=
  ⟨rfl, rfl, rfl⟩

/-- C2: for every candidate rectangle and accumulated list, mergeRect scans
the accumulated rectangles in insertion order; the first one passing the
overlap test has its edges replaced by the component-wise union (min of
left/top, max of right/bottom) of the two rectangles and scanning stops
(later rectangles are untouched even if they also overlap); if no accumulated
rectangle overlaps, the candidate is appended; and the overlap test is
exactly !(r2.left > r1.right || r2.right < r1.left || r2.top > r1.bottom ||
r2.bottom < r1.top). -/
theorem C2_mergeRect_first_match_union (pre post : List Float6)
    (r rect : Float6)
    (hpre : ∀ p ∈ pre, rectOverlap p rect = false)
    (hr : rectOverlap r rect = true) :
    mergeRect (pre ++ r :: post) rect =
      pre ++ (⟨min r.x rect.x, min r.y rect.y, max r.z rect.z, max r.w rect.w,
        r.v, r.u⟩ : Float6) :: post ∧
    (∀ rects : List Float6, (∀ p ∈ rects, rectOverlap p rect = false) →
      mergeRect rects rect = rects ++ [rect]) ∧
    (∀ r1 r2 : Float6, rectOverlap r1 r2 =
      !(decide (r2.x > r1.z) || decide (r2.z < r1.x) ||
        decide (r2.y > r1.w) || decide (r2.w < r1.y))) := by
  refine ⟨?_, mergeRect_of_no_overlap rect, fun r1 r2 => rfl⟩
  rw [mergeRect_first_match pre post r rect hpre hr, updateRect_eq_minmax]

/-- C2, witness: a concrete first-match merge where the first accumulated
rectangle does not overlap, the second does and is replaced by the union, and
the third is left untouched. -/
theorem C2_mergeRect_witness :
    mergeRect [⟨0, 0, 1, 1, 5, 0⟩, ⟨10, 10, 12, 12, 7, 1⟩,
        ⟨100, 100, 101, 101, 1, 3⟩] ⟨9, 9, 11, 11, 3, 2⟩ =
      [⟨0, 0, 1, 1, 5, 0⟩, ⟨9, 9, 12, 12, 7, 1⟩,
        ⟨100, 100, 101, 101, 1, 3⟩] := by
  have h := (C2_mergeRect_first_match_union [⟨0, 0, 1, 1, 5, 0⟩]
    [⟨100, 100, 101, 101, 1, 3⟩] ⟨10, 10, 12, 12, 7, 1⟩ ⟨9, 9, 11, 11, 3, 2⟩
    (by with_unfolding_all decide) (by with_unfolding_all decide)).1
  exact h.trans (by with_unfolding_all decide)

/-- C3: once all three dimension sets are supplied, calculateScale computes
the scale factors as exact quotients of the supplied dimensions, and a
nonzero network input over a nonzero image yields a nonzero (possibly
fractional) scale, not zero. -/
theorem C3_calculateScale_exact_quotients (s : ClusteredNonMaximumSuppression) :
    (calculateScale s).imageScaleX = (s.inputDimX : ℚ) / (s.imageDimX : ℚ) ∧
    (calculateScale s).imageScaleY = (s.inputDimY : ℚ) / (s.imageDimY : ℚ) ∧
    (calculateScale s).cellWidth = (s.inputDimX : ℚ) / (s.gridDimX : ℚ) ∧
    (calculateScale s).cellHeight = (s.inputDimY : ℚ) / (s.gridDimY : ℚ) ∧
    (0 < s.inputDimX → 0 < s.imageDimX →
      (calculateScale s).imageScaleX ≠ 0) := by
  refine ⟨rfl, rfl, rfl, rfl, fun h1 h2 => ?_⟩
  show (s.inputDimX : ℚ) / (s.imageDimX : ℚ) ≠ 0
  exact div_ne_zero (Nat.cast_ne_zero.mpr h1.ne')
    (Nat.cast_ne_zero.mpr h2.ne')

/-- C3, witness: a network input of 640 over a 1920-pixel-wide image yields
the exact fractional scale 1/3, not zero. -/
theorem C3_calculateScale_witness :
    (calculateScale { defaultSuppression with
        inputDimX := 640, imageDimX := 1920 }).imageScaleX = 1 / 3 ∧
    (calculateScale { defaultSuppression with
        inputDimX := 640, imageDimX := 1920 }).imageScaleX ≠ 0 := by
  have h := C3_calculateScale_exact_quotients
    { defaultSuppression with inputDimX := 640, imageDimX := 1920 }
  exact ⟨h.1.trans (by with_unfolding_all rfl),
    h.2.2.2.2 (by decide) (by decide)⟩

/-- C6: merging further candidates into an accumulated rectangle changes only
its four edge coordinates: the projection of the accumulated list to the
(confidence, class) pair is preserved by mergeRect except for the appended
candidate when nothing overlaps, and every emitted ClassifiedRegion carries
exactly the confidence value and class recorded in its accumulated
rectangle, never a recomputed max or average. -/
theorem C6_merge_preserves_confidence_class (rects : List Float6)
    (rect : Float6) :
    (mergeRect rects rect).map (fun r => (r.v, r.u)) =
      rects.map (fun r => (r.v, r.u)) ++
        (if rects.any (fun r => rectOverlap r rect) then []
         else [(rect.v, rect.u)]) ∧
    (∀ r : Float6, (emitRegion r).coverage = r.v ∧
      (emitRegion r).id = truncToNat r.u) :=
  ⟨mergeRect_map_vu rect rects, fun _ => ⟨rfl, rfl⟩⟩

/-- C4: for every starting state and every choice of image, input and grid
dimensions, the three setters applied in any of the 6 possible orders yield
the very same state (hence identical scale factors); each setter is
idempotent; and re-setting any one of the three with new values after all
three are ready recomputes the downstream scale factors from the new
values. -/
theorem C4_setters_commute_idempotent_recompute
    (s : ClusteredNonMaximumSuppression) (ix iy nx ny gx gy : ℕ) :
    (setupGrid (setupInput (setupImage s ix iy) nx ny) gx gy =
      setupInput (setupGrid (setupImage s ix iy) gx gy) nx ny) ∧
    (setupGrid (setupInput (setupImage s ix iy) nx ny) gx gy =
      setupGrid (setupImage (setupInput s nx ny) ix iy) gx gy) ∧
    (setupGrid (setupInput (setupImage s ix iy) nx ny) gx gy =
      setupImage (setupGrid (setupInput s nx ny) gx gy) ix iy) ∧
    (setupGrid (setupInput (setupImage s ix iy) nx ny) gx gy =
      setupInput (setupImage (setupGrid s gx gy) ix iy) nx ny) ∧
    (setupGrid (setupInput (setupImage s ix iy) nx ny) gx gy =
      setupImage (setupInput (setupGrid s gx gy) nx ny) ix iy) ∧
    (setupImage (setupImage s ix iy) ix iy = setupImage s ix iy) ∧
    (setupInput (setupInput s nx ny) nx ny = setupInput s nx ny) ∧
    (setupGrid (setupGrid s gx gy) gx gy = setupGrid s gx gy) ∧
    (s.inputReady = true → s.gridReady = true →
      (setupImage s ix iy).imageScaleX = (s.inputDimX : ℚ) / (ix : ℚ) ∧
      (setupImage s ix iy).imageScaleY = (s.inputDimY : ℚ) / (iy : ℚ)) ∧
    (s.imageReady = true → s.gridReady = true →
      (setupInput s nx ny).imageScaleX = (nx : ℚ) / (s.imageDimX : ℚ) ∧
      (setupInput s nx ny).imageScaleY = (ny : ℚ) / (s.imageDimY : ℚ) ∧
      (setupInput s nx ny).cellWidth = (nx : ℚ) / (s.gridDimX : ℚ) ∧
      (setupInput s nx ny).cellHeight = (ny : ℚ) / (s.gridDimY : ℚ)) ∧
    (s.imageReady = true → s.inputReady = true →
      (setupGrid s gx gy).cellWidth = (s.inputDimX : ℚ) / (gx : ℚ) ∧
      (setupGrid s gx gy).cellHeight = (s.inputDimY : ℚ) / (gy : ℚ)) := by
  cases hI : s.imageReady <;> cases hN : s.inputReady <;>
    cases hG : s.gridReady <;>
    simp [setupImage, setupInput, setupGrid, calculateScale, hI, hN, hG]

/-- C4, witness: on a concrete fully configured state, re-supplying a new
image size recomputes the image scale factors from the new values. -/
theorem C4_setters_witness :
    (setupImage readyState 16 16).imageScaleX =
      (readyState.inputDimX : ℚ) / (16 : ℚ) ∧
    (setupImage readyState 16 16).imageScaleX = 1 / 4 := by
  have h := C4_setters_commute_idempotent_recompute readyState 16 16 4 4 2 2
  have h2 := h.2.2.2.2.2.2.2.2.1 (by decide) (by decide)
  exact ⟨h2.1, h2.1.trans (by with_unfolding_all rfl)⟩

/-- C5: the clustering loop of execute visits the grid cells in row-major
order (y outer, x inner) and merges a candidate rectangle exactly for the
cells whose coverage strictly exceeds the threshold; the candidate's edges
are left = (bbox0 + x*cellWidth)*imageScaleX, top = (bbox1 +
y*cellHeight)*imageScaleY, right = (bbox2 + x*cellWidth)*imageScaleX,
bottom = (bbox3 + y*cellHeight)*imageScaleY; and a class with zero cells
above threshold yields zero regions, not an error. -/
theorem C5_execute_candidates_row_major (s : ClusteredNonMaximumSuppression)
    (coverage bboxes : ℕ → ℚ) (coverageThreshold : ℚ) (c y x : ℕ) :
    clusterClass s coverage bboxes coverageThreshold c =
      (specCandidates s coverage bboxes coverageThreshold c).foldl mergeRect
        [] ∧
    (cellRect s coverage bboxes c y x).x =
      (bboxes (0 * s.gridSize + y * s.gridDimX + x) + (x : ℚ) * s.cellWidth) *
        s.imageScaleX ∧
    (cellRect s coverage bboxes c y x).y =
      (bboxes (1 * s.gridSize + y * s.gridDimX + x) + (y : ℚ) * s.cellHeight) *
        s.imageScaleY ∧
    (cellRect s coverage bboxes c y x).z =
      (bboxes (2 * s.gridSize + y * s.gridDimX + x) + (x : ℚ) * s.cellWidth) *
        s.imageScaleX ∧
    (cellRect s coverage bboxes c y x).w =
      (bboxes (3 * s.gridSize + y * s.gridDimX + x) + (y : ℚ) * s.cellHeight) *
        s.imageScaleY ∧
    ((∀ y2, y2 < s.gridDimY → ∀ x2, x2 < s.gridDimX →
        ¬ coverage (c * s.gridSize + y2 * s.gridDimX + x2) >
          coverageThreshold) →
      clusterClass s coverage bboxes coverageThreshold c = []) := by
  refine ⟨clusterClass_eq_foldl s coverage bboxes coverageThreshold c,
    rfl, rfl, rfl, rfl, fun h => ?_⟩
  rw [clusterClass_eq_foldl]
  have hnil : specCandidates s coverage bboxes coverageThreshold c = [] := by
    rw [specCandidates, List.filterMap_eq_nil_iff]
    intro p hp
    rw [rowMajorCells, List.mem_flatMap] at hp
    obtain ⟨y2, hy2, hmem⟩ := hp
    rw [List.mem_map] at hmem
    obtain ⟨x2, hx2, rfl⟩ := hmem
    rw [List.mem_range] at hy2 hx2
    exact if_neg (h y2 hy2 x2 hx2)
  rw [hnil]
  rfl

/-- C5, witness: with every coverage value below the threshold, the
clustering loop of the configured fixture returns no regions. -/
theorem C5_candidates_witness :
    clusterClass readyState (fun _ => 0) (fun _ => 0) 1 0 = [] := by
  have h := C5_execute_candidates_row_major readyState (fun _ => 0)
    (fun _ => 0) 1 0 0 0
  exact h.2.2.2.2.2 (by with_unfolding_all decide)

/-- C7: the edge coordinates of an accumulated rectangle are truncated to
integers only at the point of RTClassifiedRegionOfInterest construction (the
emission step maps emitRegion over the exact rational accumulated
rectangles, after all merging), and the emitted width and height equal
truncated right minus truncated left and truncated bottom minus truncated
top (size_t subtraction, which agrees with natural subtraction whenever
right is at least left and below 2^64). -/
theorem C7_truncation_at_construction (s : ClusteredNonMaximumSuppression)
    (coverage bboxes : ℕ → ℚ) (nbClasses : ℕ) (coverageThreshold : ℚ)
    (r : Float6) :
    execute s coverage bboxes nbClasses coverageThreshold =
      (((List.range nbClasses).flatMap
          (clusterClass s coverage bboxes coverageThreshold)).map
        emitRegion).take (s.gridSize * nbClasses) ∧
    emitRegion r = ⟨truncToNat r.u, r.v, truncToNat r.x, truncToNat r.y,
      subSizeT (truncToNat r.z) (truncToNat r.x),
      subSizeT (truncToNat r.w) (truncToNat r.y)⟩ ∧
    (truncToNat r.x ≤ truncToNat r.z → truncToNat r.z < 2 ^ 64 →
      (emitRegion r).width = truncToNat r.z - truncToNat r.x) ∧
    (truncToNat r.y ≤ truncToNat r.w → truncToNat r.w < 2 ^ 64 →
      (emitRegion r).height = truncToNat r.w - truncToNat r.y) := by
  refine ⟨?_, rfl, fun h1 h2 => subSizeT_eq _ _ h1 h2,
    fun h1 h2 => subSizeT_eq _ _ h1 h2⟩
  rw [execute_eq_take_flatMap, List.map_flatMap]

/-- C7, witness: truncating the exact rational rectangle
(5/2, 1/2, 7, 9/2) at construction gives corner (2, 0) with width 7 - 2 = 5
and height 4 - 0 = 4. -/
theorem C7_truncation_witness :
    (emitRegion ⟨5 / 2, 1 / 2, 7, 9 / 2, 1, 3⟩).width = 5 ∧
    (emitRegion ⟨5 / 2, 1 / 2, 7, 9 / 2, 1, 3⟩).height = 4 := by
  have h := C7_truncation_at_construction defaultSuppression (fun _ => 0)
    (fun _ => 0) 0 0 ⟨5 / 2, 1 / 2, 7, 9 / 2, 1, 3⟩
  exact ⟨(h.2.2.1 (by with_unfolding_all decide)
      (by with_unfolding_all decide)).trans (by with_unfolding_all rfl),
    (h.2.2.2 (by with_unfolding_all decide)
      (by with_unfolding_all decide)).trans (by with_unfolding_all rfl)⟩

/-- C8: the total number of regions returned by execute is at most
gridSize * nbClasses, and (whenever gridSize is the number of grid cells, as
every setupGrid call makes it) each per-class accumulated list is bounded by
gridSize, since merging only ever reduces or holds steady the candidate
count. -/
theorem C8_output_count_bounded (s : ClusteredNonMaximumSuppression)
    (coverage bboxes : ℕ → ℚ) (nbClasses : ℕ) (coverageThreshold : ℚ) :
    (execute s coverage bboxes nbClasses coverageThreshold).length ≤
      s.gridSize * nbClasses ∧
    (s.gridSize = s.gridDimX * s.gridDimY →
      ∀ c, (clusterClass s coverage bboxes coverageThreshold c).length ≤
        s.gridSize) := by
  constructor
  · rw [execute_eq_take_flatMap]
    exact List.length_take_le _ _
  · intro h c
    rw [h, Nat.mul_comm]
    exact clusterClass_length_le s coverage bboxes coverageThreshold c

/-- C8, witness: on the configured 2x2 fixture with one class, at most
4 = gridSize * nbClasses regions come back, and the class-0 accumulated list
stays within gridSize. -/
theorem C8_output_count_witness :
    (execute readyState (fun _ => 1) (fun _ => 0) 1 0).length ≤ 4 ∧
    (clusterClass readyState (fun _ => 1) (fun _ => 0) 0 0).length ≤ 4 := by
  have h := C8_output_count_bounded readyState (fun _ => 1) (fun _ => 0) 1 0
  exact ⟨le_trans h.1 (by decide), le_trans (h.2 (by decide) 0) (by decide)⟩

/-- C10: the region list returned by execute is grouped by class in
ascending class-index order, and within each class the regions appear in the
order their accumulated rectangles were first created: whenever gridSize is
the number of grid cells (as every setupGrid call makes it), execute equals
the concatenation over classes 0, 1, ... of each class's accumulated list
mapped to regions. -/
theorem C10_output_grouped_by_class (s : ClusteredNonMaximumSuppression)
    (coverage bboxes : ℕ → ℚ) (nbClasses : ℕ) (coverageThreshold : ℚ)
    (h : s.gridSize = s.gridDimX * s.gridDimY) :
    execute s coverage bboxes nbClasses coverageThreshold =
      (List.range nbClasses).flatMap (fun c =>
        (clusterClass s coverage bboxes coverageThreshold c).map
          emitRegion) := by
  rw [execute_eq_take_flatMap]
  apply List.take_of_length_le
  have hb : ∀ c ∈ List.range nbClasses,
      ((clusterClass s coverage bboxes coverageThreshold c).map
        emitRegion).length ≤ s.gridSize := by
    intro c _
    rw [List.length_map, h, Nat.mul_comm]
    exact clusterClass_length_le s coverage bboxes coverageThreshold c
  have h2 := flatMap_length_le _ s.gridSize (List.range nbClasses) hb
  rw [List.length_range] at h2
  calc ((List.range nbClasses).flatMap (fun c =>
        (clusterClass s coverage bboxes coverageThreshold c).map
          emitRegion)).length
      ≤ nbClasses * s.gridSize := h2
    _ = s.gridSize * nbClasses := Nat.mul_comm _ _

/-- C10, witness: the end-to-end spec scenario (2x2 grid, 1 class, threshold
1/2, coverage 9/10 at cells (0,0) and (1,1), unit scales) returns exactly
the two class-0 regions at those cells, in creation order. -/
theorem C10_output_grouped_witness :
    unitState.gridSize = unitState.gridDimX * unitState.gridDimY ∧
    execute unitState covE (fun _ => 0) 1 (1 / 2) =
      [⟨0, 9 / 10, 0, 0, 0, 0⟩, ⟨0, 9 / 10, 1, 1, 0, 0⟩] := by
  have h := C10_output_grouped_by_class unitState covE (fun _ => 0) 1 (1 / 2)
    (by decide)
  exact ⟨by decide, h.trans (by with_unfolding_all rfl)⟩

end JetsonTensorrt
